import Mathlib

/-!
Verification of the POSIX (Unix) code paths of `conio_lt.h` (mitsuki31/conio_lt).

The embedding models the process-wide console state visible to the library:
the termios local-mode flags of standard input (`c_lflag`), the fcntl file
status flags of standard input, the bytes pending on standard input, and the
bytes written to standard output.  Machine integers are modelled over
`Nat`/`Int` with explicit masking and wrapping where the C code truncates
(`tcflag_t` is 32-bit unsigned; `cpos_t` is `int16_t` on this path).

Source functions embedded here (all from src/conio_lt.h):
  - `__getch`      (lines 343-387, POSIX branch lines 346-359)
  - `__whereis_xy` (lines 417-453, POSIX branch lines 431-452)
  - `wherex` / `wherey` (lines 771-801)
  - `kbhit`        (POSIX branch, lines 720-750)
  - `dellines`     (lines 963-988)
-/

namespace ConioLt

/-- Linux termios local-mode flag `ICANON` (canonical, line-buffered input). -/
def ICANON : Nat := 2

/-- Linux termios local-mode flag `ECHO` (echo input characters). -/
def ECHO : Nat := 8

/-- Linux fcntl file-status flag `O_NONBLOCK`. -/
def O_NONBLOCK : Nat := 2048

/-- All bits of a 32-bit `tcflag_t`; `~X` in the C code is `tcflagMask ^^^ X`. -/
def tcflagMask : Nat := 2 ^ 32 - 1

/-- Console state visible to the library: termios `c_lflag` of stdin, fcntl
file-status flags of stdin, pending input bytes, and the output byte trace. -/
structure ConsoleState where
  lflag : Nat
  fflags : Nat
  input : List Nat
  output : List Nat
deriving DecidableEq, Repr

/-- One `getchar()` step.  At end of input it yields the `EOF` sentinel `-1`
and leaves the state unchanged; otherwise it consumes the first pending byte,
and the terminal driver echoes that byte to the display exactly when the
`ECHO` bit is set in the current local-mode flags. -/
def getcharState (s : ConsoleState) : Int × ConsoleState :=
  match s.input with
  | [] => (-1, s)
  | c :: rest =>
    if s.lflag &&& ECHO ≠ 0 then
      ((c : Int), { s with input := rest, output := s.output ++ [c] })
    else
      ((c : Int), { s with input := rest })

/-- Echo selector of `__getch`, the C enum `GETCH_ECHO` (conio_lt.h lines
315-318).  `GETCH_NO_ECHO` is 0 and `GETCH_USE_ECHO` is 1, so the C test
`if (__echo)` selects the `GETCH_USE_ECHO` branch. -/
inductive GETCH_ECHO where
  | GETCH_NO_ECHO
  | GETCH_USE_ECHO
deriving DecidableEq

/-- Modified local-mode flags that `__getch` applies before reading
(conio_lt.h lines 351-355):
`__newterm.c_lflag &= ~ICANON;` then
`if (__echo) __newterm.c_lflag &= ECHO; else __newterm.c_lflag &= ~ECHO;`.
Note the echo branch of the source is `&= ECHO`, a bitwise AND with the
`ECHO` mask, exactly as written there. -/
def getchNewMode (lflag : Nat) (echo : GETCH_ECHO) : Nat :=
  let noCanon := lflag &&& (tcflagMask ^^^ ICANON)
  match echo with
  | GETCH_ECHO.GETCH_USE_ECHO => noCanon &&& ECHO
  | GETCH_ECHO.GETCH_NO_ECHO => noCanon &&& (tcflagMask ^^^ ECHO)

/-- The POSIX branch of `__getch` (conio_lt.h lines 350-359): capture the
current termios flags, apply the modified flags, read one character with
`getchar()`, restore the captured flags, return the character. -/
def __getch (echo : GETCH_ECHO) (s : ConsoleState) : Int × ConsoleState :=
  let oldterm := s.lflag
  let s1 : ConsoleState := { s with lflag := getchNewMode oldterm echo }
  let r := getcharState s1
  (r.1, { r.2 with lflag := oldterm })

/-- Conversion of an `int` value to `cpos_t` (= `int16_t` on the POSIX path,
conio_lt.h lines 288-294): two's-complement wrap into `[-32768, 32767]`. -/
def int16OfInt (z : Int) : Int := (z + 32768) % 65536 - 32768

/-- The four bytes of `printf("%s[6n", ESC)` (conio_lt.h line 432), the ANSI
Device Status Report request `"\x1B[6n"` = ESC, `[`, `6`, `n`. -/
def dsrRequest : List Nat := [27, 91, 54, 110]

/-- Result of `__whereis_xy` on its POSIX branch: either both output pointers
were assigned, or the function returned early at the prefix check (pointers
untouched), or a reply terminator never arrived and the read loop consumed
the whole stream and would block forever on the next `getchar()`. -/
inductive WhereisOutcome where
  | assigned (x y : Int)
  | earlyReturn
  | blocked
deriving DecidableEq, Repr

/-- One digit-accumulation loop of `__whereis_xy` (conio_lt.h lines 442-448):
`while ((temp = __getch(GETCH_NO_ECHO)) != term) acc = acc * 10 + (temp - '0');`
Each iteration is one `__getch(GETCH_NO_ECHO)`, which by `getch_noEcho_eq`
just pops the next input byte (echo off, flags restored), so the loop is
recursion on the input list; the accumulator is a `cpos_t` assignment, hence
the `int16OfInt` wrap.  An empty input means `__getch` yields `-1` forever,
never the terminator, so the C loop would block forever: result `none`. -/
def parseLoop (term : Int) (acc : Int) : List Nat → Option (Int × List Nat)
  | [] => none
  | c :: rest =>
    if (c : Int) = term then some (acc, rest)
    else parseLoop term (int16OfInt (acc * 10 + ((c : Int) - 48))) rest

/-- The POSIX branch of `__whereis_xy` (conio_lt.h lines 431-452) as a state
machine: write the DSR request, read two reply characters with
`__getch(GETCH_NO_ECHO)`, test `(c1 != 0x1B) ^ (c2 != 0x5B)` — the source's
bitwise XOR of the two comparisons — and return early when it is non-zero;
otherwise run the `';'`-terminated digit loop into `y` and the
`'R'`-terminated digit loop into `x` (`';'` = 59, `'R'` = 82). -/
def __whereis_xy_core (s : ConsoleState) : WhereisOutcome × ConsoleState :=
  let s0 : ConsoleState := { s with output := s.output ++ dsrRequest }
  let r1 := __getch GETCH_ECHO.GETCH_NO_ECHO s0
  let r2 := __getch GETCH_ECHO.GETCH_NO_ECHO r1.2
  if Bool.xor (decide (r1.1 ≠ 27)) (decide (r2.1 ≠ 91)) then
    (WhereisOutcome.earlyReturn, r2.2)
  else
    match parseLoop 59 0 r2.2.input with
    | none => (WhereisOutcome.blocked, { r2.2 with input := [] })
    | some (yv, rest1) =>
      match parseLoop 82 0 rest1 with
      | none => (WhereisOutcome.blocked, { r2.2 with input := [] })
      | some (xv, rest2) => (WhereisOutcome.assigned xv yv, { r2.2 with input := rest2 })

/-- `__whereis_xy(cpos_t* __px, cpos_t* __py)` with the caller's current
pointee values passed in as `px`, `py`: the final `*__px = x; *__py = y;`
(conio_lt.h lines 451-452) overwrites them only when the function reaches
the end; an early return leaves them as they were, and `none` models the
call never returning (blocked read loop). -/
def __whereis_xy (px py : Int) (s : ConsoleState) :
    Option ((Int × Int) × ConsoleState) :=
  match __whereis_xy_core s with
  | (WhereisOutcome.assigned xv yv, s1) => some ((xv, yv), s1)
  | (WhereisOutcome.earlyReturn, s1) => some ((px, py), s1)
  | (WhereisOutcome.blocked, _) => none

/-- `wherex()` (conio_lt.h lines 771-776): local coordinates start at 0,
`__whereis_xy` may update them, and the X value is returned. -/
def wherex (s : ConsoleState) : Option (Int × ConsoleState) :=
  match __whereis_xy 0 0 s with
  | none => none
  | some ((x, _), s1) => some (x, s1)

/-- `wherey()` (conio_lt.h lines 796-801): local coordinates start at 0,
`__whereis_xy` may update them, and the Y value is returned. -/
def wherey (s : ConsoleState) : Option (Int × ConsoleState) :=
  match __whereis_xy 0 0 s with
  | none => none
  | some ((_, y), s1) => some (y, s1)

/-- Digit-group value as the source accumulates it: left fold of
`acc = acc * 10 + (digit - '0')` into a `cpos_t`, starting from 0. -/
def digitAccum (ds : List Nat) : Int :=
  ds.foldl (fun a d => int16OfInt (a * 10 + ((d : Int) - 48))) 0

/-- The POSIX branch of `kbhit` (conio_lt.h lines 720-750): save the termios
flags, clear `ICANON` and `ECHO`, save the fcntl file-status flags, set
`O_NONBLOCK`, call `getchar()` (which returns `EOF` immediately when no byte
is pending), restore both the termios flags and the file-status flags, and
if a byte was read push it back with `ungetc` and return 1, else return 0. -/
def kbhit (s : ConsoleState) : Int × ConsoleState :=
  let oldt := s.lflag
  let newt := oldt &&& (tcflagMask ^^^ (ICANON ||| ECHO))
  let s1 : ConsoleState := { s with lflag := newt }
  let oldf := s1.fflags
  let s2 : ConsoleState := { s1 with fflags := oldf ||| O_NONBLOCK }
  let r := getcharState s2
  let s3 : ConsoleState := { r.2 with lflag := oldt, fflags := oldf }
  if r.1 ≠ -1 then (1, { s3 with input := r.1.toNat :: s3.input })
  else (0, s3)

/-- Observable console operations performed by `dellines` (conio_lt.h lines
963-988): `gotoy(i)` cursor moves, `delline()` line clears, and the
`fprintf(stderr, ...)` emitted on a negative argument. -/
inductive Op where
  | gotoy (y : Int)
  | delline
  | rangeError
deriving DecidableEq, Repr

/-- C `^` on two `cpos_t` values as `dellines` uses it: the operands are
promoted to `int`, XOR-ed bitwise, and the result is assigned back into a
`cpos_t`.  `dellines` only reaches its XOR swap after rejecting negative
arguments, so the operands are non-negative and `Int.toNat` is exact. -/
def xor16 (a b : Int) : Int := int16OfInt ((Nat.xor a.toNat b.toNat : Nat) : Int)

/-- The XOR swap of `dellines` (conio_lt.h line 973):
`from ^= to; to ^= from; from ^= to;`. -/
def xorSwap (a b : Int) : Int × Int :=
  let a1 := xor16 a b
  let b1 := xor16 b a1
  let a2 := xor16 a1 b1
  (a2, b1)

/-- The clearing loop of `dellines` (conio_lt.h lines 980-985):
`for (i = from; i <= to; i++) { gotoy(i); delline(); }` with `i` a `cpos_t`
(`int16_t`).  When the loop reaches `i = 32767` with `i <= to` still true,
`i++` wraps to `-32768` and the loop can never exit (the condition
`i <= to` stays satisfiable forever), so the call never returns: `none`. -/
def delloop (i t : Int) : Option (List Op) :=
  if h : i ≤ t then
    if i = 32767 then none
    else (delloop (i + 1) t).map fun ops => Op.gotoy i :: Op.delline :: ops
  else some []
termination_by (t + 1 - i).toNat
decreasing_by omega

/-- The finite trace that the `dellines` loop produces when the counter does
not wrap: `gotoy(i); delline();` for `i = from` up to `to` inclusive. -/
def clearSeq (i t : Int) : List Op :=
  if i ≤ t then Op.gotoy i :: Op.delline :: clearSeq (i + 1) t else []
termination_by (t + 1 - i).toNat
decreasing_by omega

/-- `dellines(cpos_t from, cpos_t to)` (conio_lt.h lines 963-988) as the
trace of console operations it performs: reject negative arguments with an
error message, swap `from` and `to` by XOR when `from > to`, move to the
first line, clear each line of the inclusive range in ascending order, and
finally restore the Y-coordinate saved from `wherey()` before the loop
(passed in here as `y`).  `none` models the non-terminating loop. -/
def dellines (a b y : Int) : Option (List Op) :=
  if a < 0 ∨ b < 0 then some [Op.rangeError]
  else
    let p := if b < a then xorSwap a b else (a, b)
    (delloop p.1 p.2).map fun ops => Op.gotoy p.1 :: (ops ++ [Op.gotoy y])

/-! ## Helper lemmas -/

lemma land_land_eq_zero (lf a b : Nat) (h : a &&& b = 0) : (lf &&& a) &&& b = 0 := by
  rw [Nat.land_assoc, h]
  simp

lemma noEcho_mode_echo_bit (lf : Nat) :
    getchNewMode lf GETCH_ECHO.GETCH_NO_ECHO &&& ECHO = 0 := by
  unfold getchNewMode
  exact land_land_eq_zero _ _ _ (by decide)

/-- Reading with `GETCH_NO_ECHO` pops one byte from the input (yielding `-1`
at end of input) and changes nothing else: the applied mode has the `ECHO`
bit cleared, so nothing is echoed, and the flags are restored on exit. -/
lemma getch_noEcho_eq (s : ConsoleState) :
    __getch GETCH_ECHO.GETCH_NO_ECHO s =
      ((match s.input with
        | [] => (-1 : Int)
        | c :: _ => (c : Int)), { s with input := s.input.tail }) := by
  obtain ⟨lf, ff, inp, out⟩ := s
  cases inp with
  | nil => rfl
  | cons c rest =>
    simp only [__getch, getcharState, noEcho_mode_echo_bit, ne_eq,
      not_true_eq_false, not_false_eq_true, if_neg]
    rfl

lemma parseLoop_digits (tn : Nat) (acc : Int) (ds rest : List Nat)
    (h : ∀ d ∈ ds, d ≠ tn) :
    parseLoop (tn : Int) acc (ds ++ tn :: rest) =
      some (ds.foldl (fun a d => int16OfInt (a * 10 + ((d : Int) - 48))) acc, rest) := by
  induction ds generalizing acc with
  | nil => simp [parseLoop]
  | cons d ds ih =>
    have hd : d ≠ tn := h d (List.mem_cons_self d ds)
    have hd' : ((d : Nat) : Int) ≠ (tn : Int) := by exact_mod_cast hd
    simp only [List.cons_append, parseLoop, if_neg hd', List.foldl_cons]
    exact ih _ (fun x hx => h x (List.mem_cons_of_mem d hx))

lemma whereis_core_goodHead (lf ff : Nat) (L out : List Nat) :
    __whereis_xy_core ⟨lf, ff, 27 :: 91 :: L, out⟩ =
      (match parseLoop 59 0 L with
       | none => (WhereisOutcome.blocked, ⟨lf, ff, [], out ++ dsrRequest⟩)
       | some (yv, rest1) =>
         match parseLoop 82 0 rest1 with
         | none => (WhereisOutcome.blocked, ⟨lf, ff, [], out ++ dsrRequest⟩)
         | some (xv, rest2) =>
           (WhereisOutcome.assigned xv yv, ⟨lf, ff, rest2, out ++ dsrRequest⟩)) := by
  simp only [__whereis_xy_core, getch_noEcho_eq, List.tail_cons, Nat.cast_ofNat]
  norm_num

lemma whereis_core_badHead (lf ff : Nat) (c1 c2 : Nat) (rest out : List Nat)
    (h : Bool.xor (decide ((c1 : Int) ≠ 27)) (decide ((c2 : Int) ≠ 91)) = true) :
    __whereis_xy_core ⟨lf, ff, c1 :: c2 :: rest, out⟩ =
      (WhereisOutcome.earlyReturn, ⟨lf, ff, rest, out ++ dsrRequest⟩) := by
  simp only [__whereis_xy_core, getch_noEcho_eq, List.tail_cons]
  rw [h]
  rfl

lemma kbhit_mode_echo_bit (lf : Nat) :
    (lf &&& (tcflagMask ^^^ (ICANON ||| ECHO))) &&& ECHO = 0 :=
  land_land_eq_zero _ _ _ (by decide)

lemma getcharState_noEcho (lf ff : Nat) (inp out : List Nat) (h : lf &&& ECHO = 0) :
    getcharState ⟨lf, ff, inp, out⟩ =
      ((match inp with
        | [] => (-1 : Int)
        | c :: _ => (c : Int)), ⟨lf, ff, inp.tail, out⟩) := by
  cases inp with
  | nil => rfl
  | cons c rest => simp [getcharState, h]

lemma getcharState_fst_cons (s : ConsoleState) (c : Nat) (cs : List Nat)
    (h : s.input = c :: cs) : (getcharState s).1 = (c : Int) := by
  simp only [getcharState, h]
  split <;> rfl

lemma int16OfInt_eq_self (z : Int) (h0 : 0 ≤ z) (h1 : z < 32768) :
    int16OfInt z = z := by
  unfold int16OfInt
  omega

lemma xor_lt_32768 (m n : Nat) (hm : m < 32768) (hn : n < 32768) :
    m ^^^ n < 32768 := by
  have h : m ^^^ n = Nat.bitwise bne m n := rfl
  have h15 : (32768 : Nat) = 2 ^ 15 := by norm_num
  rw [h, h15]
  exact Nat.bitwise_lt (by rw [← h15]; exact hm) (by rw [← h15]; exact hn)

lemma xor16_natCast (m n : Nat) (hm : m < 32768) (hn : n < 32768) :
    xor16 (m : Int) (n : Int) = ((m ^^^ n : Nat) : Int) := by
  unfold xor16
  rw [Int.toNat_natCast, Int.toNat_natCast]
  exact int16OfInt_eq_self _ (Int.ofNat_nonneg _)
    (by exact_mod_cast xor_lt_32768 m n hm hn)

/-- The XOR swap of `dellines` exchanges two non-negative `cpos_t` values. -/
lemma xorSwap_eq (a b : Int) (ha0 : 0 ≤ a) (ha1 : a ≤ 32767)
    (hb0 : 0 ≤ b) (hb1 : b ≤ 32767) : xorSwap a b = (b, a) := by
  obtain ⟨m, rfl⟩ := Int.eq_ofNat_of_zero_le ha0
  obtain ⟨n, rfl⟩ := Int.eq_ofNat_of_zero_le hb0
  have hm : m < 32768 := by omega
  have hn : n < 32768 := by omega
  have hx : m ^^^ n < 32768 := xor_lt_32768 m n hm hn
  simp only [xorSwap]
  rw [xor16_natCast m n hm hn, xor16_natCast n (m ^^^ n) hn hx,
    Nat.xor_comm m n, Nat.xor_cancel_left, xor16_natCast (n ^^^ m) m (xor_lt_32768 n m hn hm) hm,
    Nat.xor_cancel_right]

lemma delloop_neg (i t : Int) (h : ¬ i ≤ t) : delloop i t = some [] := by
  rw [delloop.eq_def, dif_neg h]

lemma delloop_stop (i t : Int) (h : i ≤ t) (he : i = 32767) : delloop i t = none := by
  conv_lhs => rw [delloop.eq_def]
  rw [dif_pos h, if_pos he]

lemma delloop_pos_ne (i t : Int) (h : i ≤ t) (he : i ≠ 32767) :
    delloop i t = (delloop (i + 1) t).map fun ops => Op.gotoy i :: Op.delline :: ops := by
  conv_lhs => rw [delloop.eq_def]
  rw [dif_pos h, if_neg he]

lemma clearSeq_neg (i t : Int) (h : ¬ i ≤ t) : clearSeq i t = [] := by
  rw [clearSeq.eq_def, if_neg h]

lemma clearSeq_pos (i t : Int) (h : i ≤ t) :
    clearSeq i t = Op.gotoy i :: Op.delline :: clearSeq (i + 1) t := by
  conv_lhs => rw [clearSeq.eq_def]
  rw [if_pos h]

lemma delloop_eq_clearSeq_aux (n : Nat) :
    ∀ i t : Int, (t + 1 - i).toNat ≤ n → t ≤ 32766 →
      delloop i t = some (clearSeq i t) := by
  induction n with
  | zero =>
    intro i t hn ht
    have h : ¬ i ≤ t := by omega
    rw [delloop_neg i t h, clearSeq_neg i t h]
  | succ n ih =>
    intro i t hn ht
    by_cases h : i ≤ t
    · have h2 : i ≠ 32767 := by omega
      rw [delloop_pos_ne i t h h2, clearSeq_pos i t h,
        ih (i + 1) t (by omega) ht]
      rfl
    · rw [delloop_neg i t h, clearSeq_neg i t h]

/-- The clearing loop terminates with the ascending trace whenever the upper
bound is below the `int16_t` maximum. -/
lemma delloop_eq_clearSeq (i t : Int) (ht : t ≤ 32766) :
    delloop i t = some (clearSeq i t) :=
  delloop_eq_clearSeq_aux (t + 1 - i).toNat i t le_rfl ht

lemma delloop_none_at_top_aux (n : Nat) :
    ∀ i : Int, 0 ≤ i → i ≤ 32767 → (32767 - i).toNat ≤ n →
      delloop i 32767 = none := by
  induction n with
  | zero =>
    intro i h0 h1 hn
    exact delloop_stop i 32767 h1 (by omega)
  | succ n ih =>
    intro i h0 h1 hn
    by_cases he : i = 32767
    · exact delloop_stop i 32767 h1 he
    · rw [delloop_pos_ne i 32767 h1 he, ih (i + 1) (by omega) (by omega) (by omega)]
      rfl

/-- When the upper bound is exactly 32767, the loop counter wraps before it
can exceed the bound: the loop never terminates. -/
lemma delloop_none_at_top (i : Int) (h0 : 0 ≤ i) (h1 : i ≤ 32767) :
    delloop i 32767 = none :=
  delloop_none_at_top_aux (32767 - i).toNat i h0 h1 le_rfl

lemma dellines_normalized (u v y : Int) (hu0 : 0 ≤ u) (hu1 : u ≤ 32767)
    (hv0 : 0 ≤ v) (hv1 : v ≤ 32767) :
    dellines u v y = (delloop (min u v) (max u v)).map
      fun ops => Op.gotoy (min u v) :: (ops ++ [Op.gotoy y]) := by
  simp only [dellines]
  rw [if_neg (by omega)]
  by_cases hc : v < u
  · rw [if_pos hc, xorSwap_eq u v hu0 hu1 hv0 hv1,
      min_eq_right (le_of_lt hc), max_eq_left (le_of_lt hc)]
  · rw [if_neg hc, min_eq_left (by omega), max_eq_right (by omega)]

/-! ## Claim theorems -/

/-- Claim C1 (code bug): the source's prefix check XORs the two mismatch
tests (`(c1 != 0x1B) ^ (c2 != 0x5B)`, conio_lt.h lines 438-439), so when
BOTH reply characters are wrong the function does not abort: on the stream
`'A' 'B' '1' ';' '2' 'R'` it keeps reading, consumes the whole stream, and
assigns x = 2, y = 1 through the pointers — contradicting the claimed
abort-with-no-further-reads behavior that the source's own comment (lines
434-437) describes. -/
theorem whereis_xor_bothfail_proceeds :
    __whereis_xy_core ⟨11, 2, [65, 66, 49, 59, 50, 82], []⟩ =
      (WhereisOutcome.assigned 2 1, ⟨11, 2, [], [27, 91, 54, 110]⟩) ∧
    __whereis_xy 7 9 ⟨11, 2, [65, 66, 49, 59, 50, 82], []⟩ =
      some ((2, 1), ⟨11, 2, [], [27, 91, 54, 110]⟩) := by
  decide

/-- Claim C2: on a well-formed reply `ESC [ digits ; digits R` the first
digit group is accumulated left-to-right (`acc = acc * 10 + (digit - 48)`,
as a `cpos_t`) into the row `y` and the second into the column `x`; exactly
the reply bytes are consumed and nothing is echoed. -/
theorem whereis_parses_digit_groups (d1 d2 rest : List Nat) (s : ConsoleState)
    (h1 : ∀ d ∈ d1, 48 ≤ d ∧ d ≤ 57) (h2 : ∀ d ∈ d2, 48 ≤ d ∧ d ≤ 57)
    (hin : s.input = 27 :: 91 :: (d1 ++ 59 :: (d2 ++ 82 :: rest))) :
    __whereis_xy_core s =
      (WhereisOutcome.assigned (digitAccum d2) (digitAccum d1),
        { s with input := rest, output := s.output ++ dsrRequest }) := by
  obtain ⟨lf, ff, inp, out⟩ := s
  replace hin : inp = 27 :: 91 :: (d1 ++ 59 :: (d2 ++ 82 :: rest)) := hin
  subst hin
  have e1 : parseLoop 59 0 (d1 ++ 59 :: (d2 ++ 82 :: rest)) =
      some (digitAccum d1, d2 ++ 82 :: rest) := by
    have := parseLoop_digits 59 0 d1 (d2 ++ 82 :: rest)
      (fun d hd => by have := h1 d hd; omega)
    simpa [digitAccum] using this
  have e2 : parseLoop 82 0 (d2 ++ 82 :: rest) = some (digitAccum d2, rest) := by
    have := parseLoop_digits 82 0 d2 rest (fun d hd => by have := h2 d hd; omega)
    simpa [digitAccum] using this
  rw [whereis_core_goodHead]
  simp only [e1, e2]

/-- Claim C2 witness: the reply `ESC [ 1 2 ; 3 4 R` parses to row 12 and
column 34, and `ESC [ 0 ; 0 R` parses to row 0 and column 0. -/
theorem whereis_parses_digit_groups_witness :
    __whereis_xy_core ⟨11, 2, [27, 91, 49, 50, 59, 51, 52, 82], []⟩ =
      (WhereisOutcome.assigned 34 12, ⟨11, 2, [], [27, 91, 54, 110]⟩) ∧
    __whereis_xy_core ⟨11, 2, [27, 91, 48, 59, 48, 82], []⟩ =
      (WhereisOutcome.assigned 0 0, ⟨11, 2, [], [27, 91, 54, 110]⟩) := by
  constructor
  · exact whereis_parses_digit_groups [49, 50] [51, 52] [] _ (by decide) (by decide) rfl
  · exact whereis_parses_digit_groups [48] [48] [] _ (by decide) (by decide) rfl

/-- Claim C3 (code bug): with `GETCH_USE_ECHO` the source computes the
modified mode by `c_lflag &= ECHO` (conio_lt.h line 354), an AND with the
`ECHO` mask.  Starting from `c_lflag = ISIG|ICANON|ECHO = 11` the modified
mode is 8: the unrelated `ISIG` flag is wiped, though the claim says every
other flag is left as it was (expected 9).  Starting from
`c_lflag = ISIG|ICANON = 3` the modified mode is 0: the `ECHO` bit is NOT
enabled although the policy is Echo (expected 9), so `getche()` does not
echo on a terminal whose echo was off.  The source's own comment on that
line says `/* With echo */`; setting the bit would be `|= ECHO`. -/
theorem getch_echo_mode_bug :
    getchNewMode 11 GETCH_ECHO.GETCH_USE_ECHO = 8 ∧
    getchNewMode 3 GETCH_ECHO.GETCH_USE_ECHO = 0 := by
  decide

/-- Claim C4: for every initial terminal mode, echo policy and input stream
(EOF included), the local-mode flags in effect when `__getch` returns are
exactly the flags captured at its start: `tcsetattr(..., &__oldterm)` runs
on the single exit path of the read (conio_lt.h line 359). -/
theorem getch_restores_mode (e : GETCH_ECHO) (s : ConsoleState) :
    ((__getch e s).2).lflag = s.lflag := rfl

/-- Claim C5: whenever the prefix check makes `__whereis_xy` return early,
the caller's pointees keep their previous values `px`, `py` — the stores
`*__px = x; *__py = y;` (conio_lt.h lines 451-452) are never reached — and
no byte beyond the two examined reply characters is consumed. -/
theorem whereis_abort_leaves_pointers (px py : Int) (lf ff : Nat) (c1 c2 : Nat)
    (rest out : List Nat)
    (h : Bool.xor (decide ((c1 : Int) ≠ 27)) (decide ((c2 : Int) ≠ 91)) = true) :
    __whereis_xy px py ⟨lf, ff, c1 :: c2 :: rest, out⟩ =
      some ((px, py), ⟨lf, ff, rest, out ++ dsrRequest⟩) := by
  unfold __whereis_xy
  rw [whereis_core_badHead lf ff c1 c2 rest out h]

/-- Claim C5 witness: aborting on reply `ESC 'A' ...` (second character
wrong) leaves the pointees at 7 and 9 and leaves the rest of the stream
unread. -/
theorem whereis_abort_leaves_pointers_witness :
    __whereis_xy 7 9 ⟨11, 2, [27, 65, 10], []⟩ =
      some ((7, 9), ⟨11, 2, [10], [27, 91, 54, 110]⟩) :=
  whereis_abort_leaves_pointers 7 9 11 2 27 65 [10] [] (by decide)

/-- Claim C6: every call of the escape-sequence path of `__whereis_xy`
appends exactly the four bytes ESC `[` `6` `n` to standard output — once,
with no retries — and this holds on every control path (early return,
successful parse, blocked read loop), in particular before any reply
character could be read. -/
theorem whereis_writes_dsr_request (s : ConsoleState) :
    ((__whereis_xy_core s).2).output = s.output ++ dsrRequest := by
  obtain ⟨lf, ff, inp, out⟩ := s
  simp only [__whereis_xy_core, getch_noEcho_eq]
  split
  · rfl
  · split
    · rfl
    · split <;> rfl

/-- Claim C7: at end of input `getchar()` yields the EOF sentinel `-1`, and
`__getch` returns it unmodified for either echo policy, with the captured
terminal mode restored (here: the entire state unchanged). -/
theorem getch_eof_propagates (e : GETCH_ECHO) (s : ConsoleState)
    (h : s.input = []) : __getch e s = (-1, s) := by
  obtain ⟨lf, ff, inp, out⟩ := s
  replace h : inp = ([] : List Nat) := h
  subst h
  cases e <;> rfl

/-- Claim C7 witness: `__getch` at EOF returns `-1` and the unchanged state. -/
theorem getch_eof_propagates_witness :
    __getch GETCH_ECHO.GETCH_USE_ECHO ⟨11, 2, [], []⟩ = (-1, ⟨11, 2, [], []⟩) :=
  getch_eof_propagates GETCH_ECHO.GETCH_USE_ECHO ⟨11, 2, [], []⟩ rfl

/-- Claim C8: when the prefix check makes the query abort, `wherex()` and
`wherey()` both return 0: their local coordinates are initialized to 0
(conio_lt.h lines 772 and 797) and the aborted `__whereis_xy` never writes
through the pointers. -/
theorem wherex_wherey_zero_on_malformed (lf ff : Nat) (c1 c2 : Nat)
    (rest out : List Nat)
    (h : Bool.xor (decide ((c1 : Int) ≠ 27)) (decide ((c2 : Int) ≠ 91)) = true) :
    wherex ⟨lf, ff, c1 :: c2 :: rest, out⟩ =
      some (0, ⟨lf, ff, rest, out ++ dsrRequest⟩) ∧
    wherey ⟨lf, ff, c1 :: c2 :: rest, out⟩ =
      some (0, ⟨lf, ff, rest, out ++ dsrRequest⟩) := by
  unfold wherex wherey __whereis_xy
  rw [whereis_core_badHead lf ff c1 c2 rest out h]
  exact ⟨rfl, rfl⟩

/-- Claim C8 witness: on a reply starting `'x' '['` (first character wrong)
both wrappers return 0. -/
theorem wherex_wherey_zero_on_malformed_witness :
    wherex ⟨11, 2, [120, 91, 53, 82], []⟩ =
      some (0, ⟨11, 2, [53, 82], [27, 91, 54, 110]⟩) ∧
    wherey ⟨11, 2, [120, 91, 53, 82], []⟩ =
      some (0, ⟨11, 2, [53, 82], [27, 91, 54, 110]⟩) :=
  wherex_wherey_zero_on_malformed 11 2 120 91 [53, 82] [] (by decide)

/-- Claim C9 (amended): for non-negative `cpos_t` arguments, `dellines`
performs the same operation sequence for `(a, b)` and `(b, a)` — the XOR
swap normalizes the pair to `(min, max)` — and, provided both arguments are
at most 32766 (so the `int16_t` loop counter cannot wrap at 32767), the
inclusive range `min..max` is cleared in ascending order and the saved
Y-coordinate is restored by the final `gotoy`. -/
theorem dellines_swap_equiv (a b y : Int) (ha0 : 0 ≤ a) (ha1 : a ≤ 32767)
    (hb0 : 0 ≤ b) (hb1 : b ≤ 32767) :
    dellines a b y = dellines b a y ∧
    (a ≤ 32766 → b ≤ 32766 →
      dellines a b y =
        some (Op.gotoy (min a b) ::
          (clearSeq (min a b) (max a b) ++ [Op.gotoy y]))) := by
  have h1 := dellines_normalized a b y ha0 ha1 hb0 hb1
  have h2 := dellines_normalized b a y hb0 hb1 ha0 ha1
  constructor
  · rw [h1, h2, min_comm b a, max_comm b a]
  · intro hA hB
    rw [h1, delloop_eq_clearSeq (min a b) (max a b) (max_le hA hB)]
    rfl

/-- Claim C9 witness: `dellines 3 1` and `dellines 1 3` perform the same
operations. -/
theorem dellines_swap_equiv_witness : dellines 3 1 9 = dellines 1 3 9 :=
  (dellines_swap_equiv 3 1 9 (by norm_num) (by norm_num) (by norm_num)
    (by norm_num)).1

/-- Claim C9 counterexample: at the upper `cpos_t` boundary the claim as
stated fails — `dellines 0 32767` never completes, because when the
`int16_t` loop counter reaches 32767 the increment wraps to -32768 and the
condition `i <= to` holds forever, so the range is not "cleared and the
cursor restored": the call does not return at all. -/
theorem dellines_diverges_at_top : dellines 0 32767 5 = none := by
  have h := dellines_normalized 0 32767 5 (by norm_num) (by norm_num)
    (by norm_num) (by norm_num)
  rw [h, min_eq_left (by norm_num), max_eq_right (by norm_num),
    delloop_none_at_top 0 (le_refl 0) (by norm_num)]
  rfl

/-- Claim C10: the POSIX `kbhit` is observationally pure on the console
state: the termios flags and the fcntl file-status flags are restored, the
byte it polled (if any) is pushed back by `ungetc` so the stream is exactly
as before, its return value is non-zero precisely when a byte was pending,
and the next read still yields that same byte. -/
theorem kbhit_preserves_console (s : ConsoleState) :
    (kbhit s).2 = s ∧ ((kbhit s).1 ≠ 0 ↔ s.input ≠ []) ∧
    (∀ c rest, s.input = c :: rest →
      (getcharState ((kbhit s).2)).1 = (c : Int)) := by
  obtain ⟨lf, ff, inp, out⟩ := s
  cases inp with
  | nil =>
    have h1 : kbhit ⟨lf, ff, [], out⟩ = (0, ⟨lf, ff, [], out⟩) := by
      simp only [kbhit, getcharState_noEcho _ _ _ _ (kbhit_mode_echo_bit lf)]
      norm_num
    refine ⟨by rw [h1], by rw [h1]; simp, ?_⟩
    intro c rest hc
    replace hc : ([] : List Nat) = c :: rest := hc
    cases hc
  | cons c rest =>
    have h1 : kbhit ⟨lf, ff, c :: rest, out⟩ = (1, ⟨lf, ff, c :: rest, out⟩) := by
      simp only [kbhit, getcharState_noEcho _ _ _ _ (kbhit_mode_echo_bit lf)]
      have hne : ¬ ((c : Int) = -1) := by omega
      simp [hne]
    refine ⟨by rw [h1], by rw [h1]; simp, ?_⟩
    intro c2 rest2 hc
    replace hc : c :: rest = c2 :: rest2 := hc
    have hc1 : c = c2 := (List.cons_eq_cons.mp hc).1
    rw [h1, ← hc1]
    exact getcharState_fst_cons _ c rest rfl

/-- Claim C10 witness: with the byte 65 pending, `kbhit` reports input,
leaves the whole console state unchanged, and the next read returns 65. -/
theorem kbhit_preserves_console_witness :
    (kbhit ⟨11, 2, [65], []⟩).2 = ⟨11, 2, [65], []⟩ ∧
    (getcharState ((kbhit ⟨11, 2, [65], []⟩).2)).1 = 65 :=
  ⟨(kbhit_preserves_console ⟨11, 2, [65], []⟩).1,
   (kbhit_preserves_console ⟨11, 2, [65], []⟩).2.2 65 [] rfl⟩

end ConioLt
